import Mathlib

set_option maxRecDepth 8000

/-!
Verification of the EngiMetric financial estimation core
(`backend/services/analytics_engine.py`).

Shallow embedding conventions:
* Python `float` arithmetic is modelled exactly over `ℚ`; the only
  transcendental step (the logistic curve, which calls `math.exp`) is
  modelled over `ℝ` with `Real.exp`, and the 3-decimal rounding the code
  applies to every probability brings values back into `ℚ`.
* Python `round(x)` / `round(x, n)` is modelled with Mathlib's `round`
  (round half up); no quantity in the source or in a claim sits on an
  exact half-way point where Python's round-half-even would differ.
* Python `int` is `ℤ` (scores) or `ℕ` (loop counters / margins).
* The global `random` module state is modelled by threading an explicit
  state of an arbitrary RNG implementation through the simulator.
* Presentation-only output fields (formatted strings such as
  `market_hourly_rate`, `reasoning`, `adjustment_reasons`, the
  `similar_projects` section) are omitted; no claim mentions them.
-/

/-- The benchmark field selectors passed (as strings) to
`_interpolate_from_benchmarks` at its call sites:
`"hours"`, `"hardware_cost"`, `"total_cost"`, `"rate"`. -/
inductive BmField where
  | hours
  | hardware_cost
  | total_cost
  | rate
deriving DecidableEq

/-- The sub-selector strings passed to `_interpolate_from_benchmarks`:
`"low"` or `"high"` (the code tests `sub == "low"`). -/
inductive BmSub where
  | low
  | high
deriving DecidableEq

/-- One entry of `MARKET_BENCHMARKS`.  Only the fields read by the
numerical code are kept (`score`, the three range fields and the scalar
`rate`); the purely descriptive fields (`id`, `name`, `level`, `scores`,
`client_type`, `flags`) are never used by the functions under
verification. -/
structure Benchmark where
  score : ℤ
  hardware_cost : ℚ × ℚ
  hours : ℚ × ℚ
  rate : ℚ
  total_cost : ℚ × ℚ

/-- Benchmark 1: WiFi Temperature Monitoring (Student). -/
def bm0 : Benchmark :=
  { score := 4, hardware_cost := (900, 1200), hours := (25, 40),
    rate := 500, total_cost := (15000, 22000) }

/-- Benchmark 2: Smart Soil Moisture Monitoring (Basic+). -/
def bm1 : Benchmark :=
  { score := 6, hardware_cost := (1500, 2500), hours := (35, 50),
    rate := 600, total_cost := (25000, 38000) }

/-- Benchmark 3: Smart Home Automation (Moderate). -/
def bm2 : Benchmark :=
  { score := 9, hardware_cost := (3000, 5000), hours := (60, 90),
    rate := 800, total_cost := (55000, 85000) }

/-- Benchmark 4: IoT Attendance System with RFID. -/
def bm3 : Benchmark :=
  { score := 10, hardware_cost := (4000, 7000), hours := (70, 100),
    rate := 900, total_cost := (70000, 100000) }

/-- Benchmark 5: Smart Irrigation System (Moderate+). -/
def bm4 : Benchmark :=
  { score := 12, hardware_cost := (15000, 30000), hours := (90, 140),
    rate := 1000, total_cost := (120000, 170000) }

/-- Benchmark 6: AI Face Recognition Door Access. -/
def bm5 : Benchmark :=
  { score := 14, hardware_cost := (8000, 15000), hours := (120, 180),
    rate := 1200, total_cost := (160000, 240000) }

/-- Benchmark 7: Warehouse Environmental Monitoring. -/
def bm6 : Benchmark :=
  { score := 16, hardware_cost := (120000, 250000), hours := (180, 250),
    rate := 1500, total_cost := (400000, 600000) }

/-- Benchmark 8: AI CCTV Surveillance System. -/
def bm7 : Benchmark :=
  { score := 17, hardware_cost := (200000, 400000), hours := (200, 300),
    rate := 1800, total_cost := (600000, 1000000) }

/-- Benchmark 9: Industrial Motor Predictive Maintenance. -/
def bm8 : Benchmark :=
  { score := 20, hardware_cost := (300000, 600000), hours := (250, 400),
    rate := 2000, total_cost := (800000, 1400000) }

/-- Benchmark 10: Smart Factory Energy Optimization. -/
def bm9 : Benchmark :=
  { score := 23, hardware_cost := (500000, 1000000), hours := (350, 600),
    rate := 2500, total_cost := (1500000, 2500000) }

/-- The 10-entry `MARKET_BENCHMARKS` table (numeric content). -/
def MARKET_BENCHMARKS : List Benchmark :=
  [bm0, bm1, bm2, bm3, bm4, bm5, bm6, bm7, bm8, bm9]

/-- `b[field]` followed by the `sub == "low"` selection: range fields
return the low/high component, the scalar `rate` ignores `sub`. -/
def benchValue (b : Benchmark) (f : BmField) (sub : BmSub) : ℚ :=
  match f, sub with
  | .hours, .low => b.hours.1
  | .hours, .high => b.hours.2
  | .hardware_cost, .low => b.hardware_cost.1
  | .hardware_cost, .high => b.hardware_cost.2
  | .total_cost, .low => b.total_cost.1
  | .total_cost, .high => b.total_cost.2
  | .rate, _ => b.rate

/-- `sorted(MARKET_BENCHMARKS, key=lambda b: b["score"])`: the table is
already strictly ascending by score (see `sorted_bm_sorted`), and
Python's stable sort of an already-sorted list is the identity. -/
def sorted_bm : List Benchmark := MARKET_BENCHMARKS

/-- The table really is strictly ascending by score, so modelling the
sort as the identity is faithful. -/
theorem sorted_bm_sorted : sorted_bm.Chain' (fun a b => a.score < b.score) := by
  simp [sorted_bm, MARKET_BENCHMARKS, bm0, bm1, bm2, bm3, bm4, bm5, bm6, bm7, bm8, bm9,
    List.chain'_cons]

/-- `_lerp(x, x0, x1, y0, y1)`: linear interpolation with the
degenerate-bracket guard `x1 == x0 → (y0+y1)/2`. -/
def _lerp (x x0 x1 y0 y1 : ℚ) : ℚ :=
  if x1 = x0 then (y0 + y1) / 2
  else y0 + (x - x0) / (x1 - x0) * (y1 - y0)

/-- The exact-match scan of `_interpolate_from_benchmarks`
(`for b in sorted_bm: if b["score"] == score: return ...`). -/
def findExact (score : ℤ) : List Benchmark → Option Benchmark
  | [] => none
  | b :: rest => if b.score = score then some b else findExact score rest

/-- The Python bracket-search loop
(`for b in sorted_bm: if b["score"] < score: lower = b; elif b["score"] >
score: upper = b; break`), threading `lower` and `upper`. -/
def bracketLoop (score : ℤ) : List Benchmark → Benchmark → Benchmark → Benchmark × Benchmark
  | [], lo, hi => (lo, hi)
  | b :: rest, lo, hi =>
    if b.score < score then bracketLoop score rest b hi
    else if score < b.score then (lo, b)
    else bracketLoop score rest lo hi

/-- `_interpolate_from_benchmarks(score, field, sub)`.  The `[]` branch
is unreachable (the table is non-empty; Python would raise on
`sorted_bm[0]`). -/
def _interpolate_from_benchmarks (score : ℤ) (f : BmField) (sub : BmSub) : ℚ :=
  match findExact score sorted_bm with
  | some b => benchValue b f sub
  | none =>
    match sorted_bm with
    | [] => 0
    | first :: _ =>
      let p := bracketLoop score sorted_bm first (sorted_bm.getLastD first)
      _lerp score p.1.score p.2.score (benchValue p.1 f sub) (benchValue p.2 f sub)

/-- Python `round(x, 2)` on the exact rational value. -/
def round2 (x : ℚ) : ℚ := (round (x * 100) : ℤ) / 100

/-- Python `round(x, 3)` on the exact rational value. -/
def round3 (x : ℚ) : ℚ := (round (x * 1000) : ℤ) / 1000

/-- Python `round(x)` (to an int) on the exact rational value. -/
def roundI (x : ℚ) : ℤ := round x

/-- The formula part of `predict_price` (lines 364–369):
`((hours*rate + hw) * (1+risk%)) * (1+profit%)` built exactly as the
code builds it. -/
def formula_total (estimated_hours hourly_rate hardware_cost risk_percent profit_percent : ℚ) : ℚ :=
  let labor := estimated_hours * hourly_rate
  let subtotal := labor + hardware_cost
  let risk_buffer := subtotal * (risk_percent / 100)
  let after_risk := subtotal + risk_buffer
  let profit_buffer := after_risk * (profit_percent / 100)
  after_risk + profit_buffer

/-- Midpoint of the interpolated `total_cost` range at a score. -/
def bm_mid (total_score : ℤ) : ℚ :=
  (_interpolate_from_benchmarks total_score .total_cost .low
    + _interpolate_from_benchmarks total_score .total_cost .high) / 2

/-- Midpoint of the interpolated `hardware_cost` range at a score. -/
def bm_hw_mid (total_score : ℤ) : ℚ :=
  (_interpolate_from_benchmarks total_score .hardware_cost .low
    + _interpolate_from_benchmarks total_score .hardware_cost .high) / 2

/-- `TOTAL_COST_RANGE.get(classification, (15000, 40000))`. -/
def TOTAL_COST_RANGE (classification : String) : ℚ × ℚ :=
  if classification = "Normal" then (15000, 40000)
  else if classification = "Moderate" then (55000, 170000)
  else if classification = "High" then (150000, 1000000)
  else if classification = "Industrial" then (800000, 2500000)
  else (15000, 40000)

/-- `MARKET_RATES.get(classification, (500, 800))`. -/
def MARKET_RATES (classification : String) : ℚ × ℚ :=
  if classification = "Normal" then (500, 800)
  else if classification = "Moderate" then (800, 1200)
  else if classification = "High" then (1200, 2000)
  else if classification = "Industrial" then (2000, 2500)
  else (500, 800)

/-- Return value of `predict_price` (the formatted-string field
`market_hourly_rate` is omitted). -/
structure PriceResult where
  predicted_price : ℚ
  confidence_interval : ℚ × ℚ
  base_labor : ℚ
  hardware_cost : ℚ
  risk_buffer : ℚ
  profit_buffer : ℚ
  subtotal : ℚ
  formula_price : ℚ
  benchmark_range : ℤ × ℤ

/-- `predict_price(estimated_hours, hourly_rate, hardware_cost,
risk_percent, profit_percent, total_score, classification)`. -/
def predict_price (estimated_hours hourly_rate : ℚ) (hardware_cost : ℚ := 0)
    (risk_percent : ℚ := 8) (profit_percent : ℚ := 20)
    (total_score : ℤ := 5) (classification : String := "Normal") : PriceResult :=
  let labor := estimated_hours * hourly_rate
  let subtotal := labor + hardware_cost
  let risk_buffer := subtotal * (risk_percent / 100)
  let after_risk := subtotal + risk_buffer
  let profit_buffer := after_risk * (profit_percent / 100)
  let ft := after_risk + profit_buffer
  let bm_lo := _interpolate_from_benchmarks total_score .total_cost .low
  let bm_hi := _interpolate_from_benchmarks total_score .total_cost .high
  let bm_midv := (bm_lo + bm_hi) / 2
  let total0 := 0.60 * ft + 0.40 * bm_midv
  let bm_hw_midv := bm_hw_mid total_score
  let total :=
    if 0 < bm_hw_midv ∧ 0 < hardware_cost then
      if 2 < hardware_cost / bm_hw_midv ∨ hardware_cost / bm_hw_midv < 0.3 then
        0.80 * ft + 0.20 * bm_midv
      else total0
    else total0
  let tier_range := TOTAL_COST_RANGE classification
  let spread_ratio := (tier_range.2 - tier_range.1) / max tier_range.2 1
  let spread := max 0.08 (spread_ratio * 0.3 + risk_percent / 100 * 0.15)
  { predicted_price := round2 total
    confidence_interval := (round2 (total * (1 - spread)), round2 (total * (1 + spread)))
    base_labor := round2 labor
    hardware_cost := round2 hardware_cost
    risk_buffer := round2 risk_buffer
    profit_buffer := round2 profit_buffer
    subtotal := round2 subtotal
    formula_price := round2 ft
    benchmark_range := (roundI bm_lo, roundI bm_hi) }

/-- Claim C2: `predict_price(30, 600, 1000, 8, 20, 6, "Normal")` returns
`formula_price = 24624.0` and `predicted_price = 27374.4`
(= 0.6×24624 + 0.4×31500, with 31500 the midpoint of the score-6
benchmark's `total_cost` range (25000, 38000)); the default 0.60/0.40
blend applies because 1000 lies between 0.3× and 2.0× of the benchmark
hardware-cost midpoint 2000. -/
theorem predict_price_c2_example :
    (predict_price 30 600 1000 8 20 6 "Normal").formula_price = 24624 ∧
    (predict_price 30 600 1000 8 20 6 "Normal").predicted_price = 27374.4 ∧
    (predict_price 30 600 1000 8 20 6 "Normal").predicted_price
      = 0.6 * 24624 + 0.4 * 31500 ∧
    bm_mid 6 = 31500 ∧ bm_hw_mid 6 = 2000 ∧
    (0.3 : ℚ) ≤ 1000 / bm_hw_mid 6 ∧ 1000 / bm_hw_mid 6 ≤ 2 := by
  have hmid : bm_mid 6 = 31500 := by
    simp [bm_mid, _interpolate_from_benchmarks, findExact, sorted_bm, MARKET_BENCHMARKS,
      bm0, bm1, bm2, bm3, bm4, bm5, bm6, bm7, bm8, bm9, benchValue]
    norm_num
  have hhw : bm_hw_mid 6 = 2000 := by
    simp [bm_hw_mid, _interpolate_from_benchmarks, findExact, sorted_bm, MARKET_BENCHMARKS,
      bm0, bm1, bm2, bm3, bm4, bm5, bm6, bm7, bm8, bm9, benchValue]
    norm_num
  refine ⟨?_, ?_, ?_, hmid, hhw, by rw [hhw]; norm_num, by rw [hhw]; norm_num⟩ <;>
    simp [predict_price, _interpolate_from_benchmarks, findExact, sorted_bm,
      MARKET_BENCHMARKS, bm0, bm1, bm2, bm3, bm4, bm5, bm6, bm7, bm8, bm9,
      benchValue, bm_hw_mid, round2, roundI] <;>
    norm_num [round_eq]

/-- Shared evaluation: the score-6 benchmark is an exact grid match, so
`bm_mid 6` is the midpoint of its `total_cost` range (25000, 38000). -/
theorem bm_mid_6 : bm_mid 6 = 31500 := by
  simp [bm_mid, _interpolate_from_benchmarks, findExact, sorted_bm, MARKET_BENCHMARKS,
    bm0, bm1, bm2, bm3, bm4, bm5, bm6, bm7, bm8, bm9, benchValue]
  norm_num

/-- Shared evaluation: `bm_hw_mid 6` is the midpoint of the score-6
benchmark's `hardware_cost` range (1500, 2500). -/
theorem bm_hw_mid_6 : bm_hw_mid 6 = 2000 := by
  simp [bm_hw_mid, _interpolate_from_benchmarks, findExact, sorted_bm, MARKET_BENCHMARKS,
    bm0, bm1, bm2, bm3, bm4, bm5, bm6, bm7, bm8, bm9, benchValue]
  norm_num

/-- Claim C3 (counterexample): with `hardware_cost = 0` the ratio to the
positive benchmark midpoint is below 0.3, yet `predict_price` keeps the
default 0.60/0.40 blend (the code only re-weights when
`hardware_cost > 0`), contradicting the claim that every such
hardware cost gets the 0.80/0.20 blend. -/
theorem predict_price_c3_counterexample :
    (0 : ℚ) < bm_hw_mid 6 ∧ (0 : ℚ) / bm_hw_mid 6 < 0.3 ∧
    (predict_price 30 600 0 8 20 6 "Normal").predicted_price
      ≠ round2 (0.8 * formula_total 30 600 0 8 20 + 0.2 * bm_mid 6) ∧
    (predict_price 30 600 0 8 20 6 "Normal").predicted_price
      = round2 (0.6 * formula_total 30 600 0 8 20 + 0.4 * bm_mid 6) := by
  refine ⟨by rw [bm_hw_mid_6]; norm_num, by rw [bm_hw_mid_6]; norm_num, ?_, ?_⟩ <;>
    simp [predict_price, _interpolate_from_benchmarks, findExact, sorted_bm,
      MARKET_BENCHMARKS, bm0, bm1, bm2, bm3, bm4, bm5, bm6, bm7, bm8, bm9,
      benchValue, bm_hw_mid, bm_mid, formula_total, round2] <;>
    norm_num [round_eq]

/-- Claim C3 (amended): the re-weighting to 0.80/0.20 applies exactly
when the benchmark hardware midpoint is positive, the caller-supplied
`hardware_cost` is positive, and their ratio is above 2 or below 0.3;
in every other case (including `hardware_cost = 0`) the default
0.60/0.40 blend is used. -/
theorem predict_price_blend :
    ∀ (eh hr hc rp pp : ℚ) (ts : ℤ) (cls : String),
      (predict_price eh hr hc rp pp ts cls).predicted_price =
        round2 (if 0 < bm_hw_mid ts ∧ 0 < hc ∧
                  (2 < hc / bm_hw_mid ts ∨ hc / bm_hw_mid ts < 0.3)
          then 0.8 * formula_total eh hr hc rp pp + 0.2 * bm_mid ts
          else 0.6 * formula_total eh hr hc rp pp + 0.4 * bm_mid ts) := by
  intro eh hr hc rp pp ts cls
  simp only [predict_price, formula_total, bm_mid]
  by_cases h1 : 0 < bm_hw_mid ts ∧ 0 < hc
  · by_cases h2 : 2 < hc / bm_hw_mid ts ∨ hc / bm_hw_mid ts < 0.3
    · rw [if_pos h1, if_pos h2, if_pos ⟨h1.1, h1.2, h2⟩]
      congr 1
      ring_nf
    · rw [if_pos h1, if_neg h2, if_neg (by tauto)]
      congr 1
      ring_nf
  · rw [if_neg h1, if_neg (by tauto)]
    congr 1
    ring_nf

/-- `classify_complexity(score)`: first matching tier range in the
`CLASSIFICATION` dict order, with the fall-through
`"Industrial" if score > 25 else "Normal"`. -/
def classify_complexity (score : ℤ) : String :=
  if 0 ≤ score ∧ score ≤ 6 then "Normal"
  else if 7 ≤ score ∧ score ≤ 12 then "Moderate"
  else if 13 ≤ score ∧ score ≤ 18 then "High"
  else if 19 ≤ score ∧ score ≤ 25 then "Industrial"
  else if 25 < score then "Industrial"
  else "Normal"

/-- Return value of `compute_complexity_score`. -/
structure ComplexityResult where
  hardware : ℤ
  software : ℤ
  ai_ml : ℤ
  deployment : ℤ
  risk_safety : ℤ
  total_score : ℤ
  classification : String

/-- `compute_complexity_score`: clamp each dimension to [0,5], sum,
classify. -/
def compute_complexity_score (hardware software ai_ml deployment risk_safety : ℤ) :
    ComplexityResult :=
  let hw := max 0 (min 5 hardware)
  let sw := max 0 (min 5 software)
  let ai := max 0 (min 5 ai_ml)
  let dep := max 0 (min 5 deployment)
  let rs := max 0 (min 5 risk_safety)
  let total := hw + sw + ai + dep + rs
  { hardware := hw, software := sw, ai_ml := ai, deployment := dep, risk_safety := rs
    total_score := total, classification := classify_complexity total }

/-- Claim C8: the five dimensions are clamped so `total_score ∈ [0,25]`
for arbitrary integer inputs, and `classify_complexity` maps each
integer of [0,6], [7,12], [13,18], [19,25] to Normal, Moderate, High,
Industrial respectively (a total, non-overlapping classification) and
every integer above 25 to Industrial. -/
theorem complexity_score_c8 :
    (∀ hw sw ai dep rs : ℤ,
        0 ≤ (compute_complexity_score hw sw ai dep rs).total_score ∧
        (compute_complexity_score hw sw ai dep rs).total_score ≤ 25) ∧
    (∀ n : ℤ, 0 ≤ n → n ≤ 6 → classify_complexity n = "Normal") ∧
    (∀ n : ℤ, 7 ≤ n → n ≤ 12 → classify_complexity n = "Moderate") ∧
    (∀ n : ℤ, 13 ≤ n → n ≤ 18 → classify_complexity n = "High") ∧
    (∀ n : ℤ, 19 ≤ n → n ≤ 25 → classify_complexity n = "Industrial") ∧
    (∀ n : ℤ, 25 < n → classify_complexity n = "Industrial") := by
  refine ⟨?_, ?_, ?_, ?_, ?_, ?_⟩
  · intro hw sw ai dep rs
    simp only [compute_complexity_score]
    constructor <;>
      · have h1 := le_max_left 0 (min 5 hw)
        have h2 := le_max_left 0 (min 5 sw)
        have h3 := le_max_left 0 (min 5 ai)
        have h4 := le_max_left 0 (min 5 dep)
        have h5 := le_max_left 0 (min 5 rs)
        have g1 : max 0 (min 5 hw) ≤ 5 := max_le (by norm_num) (min_le_left 5 hw)
        have g2 : max 0 (min 5 sw) ≤ 5 := max_le (by norm_num) (min_le_left 5 sw)
        have g3 : max 0 (min 5 ai) ≤ 5 := max_le (by norm_num) (min_le_left 5 ai)
        have g4 : max 0 (min 5 dep) ≤ 5 := max_le (by norm_num) (min_le_left 5 dep)
        have g5 : max 0 (min 5 rs) ≤ 5 := max_le (by norm_num) (min_le_left 5 rs)
        linarith
  all_goals
    intro n h1
    try intro h2
  all_goals
    simp only [classify_complexity]
  · rw [if_pos ⟨h1, h2⟩]
  · rw [if_neg (by omega), if_pos ⟨h1, h2⟩]
  · rw [if_neg (by omega), if_neg (by omega), if_pos ⟨h1, h2⟩]
  · rw [if_neg (by omega), if_neg (by omega), if_neg (by omega), if_pos ⟨h1, h2⟩]
  · rw [if_neg (by omega), if_neg (by omega), if_neg (by omega), if_neg (by omega),
      if_pos h1]

/-- Witness for C8 at concrete inputs: dimensions (7, −3, 2, 0, 5) clamp
to a total in [0,25], and score 10 classifies as Moderate. -/
theorem complexity_score_c8_witness :
    (0 ≤ (compute_complexity_score 7 (-3) 2 0 5).total_score ∧
      (compute_complexity_score 7 (-3) 2 0 5).total_score ≤ 25) ∧
    classify_complexity 10 = "Moderate" :=
  ⟨complexity_score_c8.1 7 (-3) 2 0 5,
    complexity_score_c8.2.2.1 10 (by norm_num) (by norm_num)⟩

/-- Return value of `calculate_risk`. -/
structure RiskResult where
  risk_percent : ℚ
  breakdown : List (String × ℚ)
  capped : Bool

/-- `calculate_risk(safety_critical, has_ai, custom_pcb, large_scale)`:
base 8% plus fixed add-ons, capped at 35%. -/
def calculate_risk (safety_critical : Bool := false) (has_ai : Bool := false)
    (custom_pcb : Bool := false) (large_scale : Bool := false) : RiskResult :=
  let r1 : ℚ := 8
  let r2 := if safety_critical then r1 + 5 else r1
  let r3 := if has_ai then r2 + 4 else r2
  let r4 := if custom_pcb then r3 + 3 else r3
  let r5 := if large_scale then r4 + 3 else r4
  let risk := min 35 r5
  { risk_percent := risk
    breakdown := [("Base risk", 8)]
        ++ (if safety_critical then [("Safety critical", 5)] else [])
        ++ (if has_ai then [("AI/ML involved", 4)] else [])
        ++ (if custom_pcb then [("Custom PCB", 3)] else [])
        ++ (if large_scale then [("Large-scale deployment", 3)] else [])
    capped := decide (35 ≤ risk) }

/-- Claim C9: for every flag combination `calculate_risk` returns
exactly `8 + 5·[safety_critical] + 4·[has_ai] + 3·[custom_pcb] +
3·[large_scale]`, which never exceeds 23 (attained at all-true), so the
`min(35, ·)` ceiling never alters the result and `capped` is `false`
for every possible input. -/
theorem calculate_risk_c9 :
    (∀ a b c d : Bool,
        (calculate_risk a b c d).risk_percent =
          8 + (if a then 5 else 0) + (if b then 4 else 0)
            + (if c then 3 else 0) + (if d then 3 else 0) ∧
        (calculate_risk a b c d).risk_percent ≤ 23 ∧
        min 35 ((calculate_risk a b c d).risk_percent) =
          (calculate_risk a b c d).risk_percent ∧
        (calculate_risk a b c d).capped = false) ∧
    (calculate_risk true true true true).risk_percent = 23 := by
  constructor
  · intro a b c d
    cases a <;> cases b <;> cases c <;> cases d <;>
      refine ⟨by norm_num [calculate_risk], by norm_num [calculate_risk],
        by norm_num [calculate_risk], ?_⟩ <;>
      · simp only [calculate_risk]
        rw [decide_eq_false_iff_not]
        norm_num
  · norm_num [calculate_risk]

/-- If no list entry's score equals the target, the exact-match scan
returns `none`. -/
theorem findExact_eq_none {s : ℤ} :
    ∀ {l : List Benchmark}, (∀ b ∈ l, b.score ≠ s) → findExact s l = none := by
  intro l
  induction l with
  | nil => intro _; rfl
  | cons b rest ih =>
    intro h
    simp only [findExact]
    rw [if_neg (h b (by simp))]
    exact ih fun x hx => h x (by simp [hx])

/-- If every entry's score is below the target, the bracket loop runs to
the end of the list: `lower` is the last entry, `upper` is unchanged. -/
theorem bracketLoop_all_lt {s : ℤ} :
    ∀ {l : List Benchmark} (lo hi : Benchmark), (∀ b ∈ l, b.score < s) →
      bracketLoop s l lo hi = (l.getLastD lo, hi) := by
  intro l
  induction l with
  | nil => intro lo hi _; rfl
  | cons b rest ih =>
    intro lo hi h
    simp only [bracketLoop]
    rw [if_pos (h b (by simp))]
    rw [ih b hi fun x hx => h x (by simp [hx])]
    rw [List.getLastD_cons]

/-- Claim C4: `_interpolate_from_benchmarks` (a) returns the stored
value exactly at every grid score, for every field/sub-selector; (b)
returns the minimum-score benchmark's value for every score below 4;
(c) returns the maximum-score benchmark's value for every score above
23; (d) returns the linear interpolation of the bracketing pair's
values at every integer score strictly between two adjacent grid scores
(the integer scores strictly inside a gap of the grid
4,6,9,10,12,14,16,17,20,23 are exactly 5, 7, 8, 11, 13, 15, 18, 19, 21
and 22). -/
theorem interpolate_c4 :
    (∀ b ∈ MARKET_BENCHMARKS, ∀ f sub,
        _interpolate_from_benchmarks b.score f sub = benchValue b f sub) ∧
    (∀ (s : ℤ) (f : BmField) (sub : BmSub), s < 4 →
        _interpolate_from_benchmarks s f sub = benchValue bm0 f sub) ∧
    (∀ (s : ℤ) (f : BmField) (sub : BmSub), 23 < s →
        _interpolate_from_benchmarks s f sub = benchValue bm9 f sub) ∧
    (∀ (f : BmField) (sub : BmSub),
        _interpolate_from_benchmarks 5 f sub
          = _lerp 5 4 6 (benchValue bm0 f sub) (benchValue bm1 f sub) ∧
        _interpolate_from_benchmarks 7 f sub
          = _lerp 7 6 9 (benchValue bm1 f sub) (benchValue bm2 f sub) ∧
        _interpolate_from_benchmarks 8 f sub
          = _lerp 8 6 9 (benchValue bm1 f sub) (benchValue bm2 f sub) ∧
        _interpolate_from_benchmarks 11 f sub
          = _lerp 11 10 12 (benchValue bm3 f sub) (benchValue bm4 f sub) ∧
        _interpolate_from_benchmarks 13 f sub
          = _lerp 13 12 14 (benchValue bm4 f sub) (benchValue bm5 f sub) ∧
        _interpolate_from_benchmarks 15 f sub
          = _lerp 15 14 16 (benchValue bm5 f sub) (benchValue bm6 f sub) ∧
        _interpolate_from_benchmarks 18 f sub
          = _lerp 18 17 20 (benchValue bm7 f sub) (benchValue bm8 f sub) ∧
        _interpolate_from_benchmarks 19 f sub
          = _lerp 19 17 20 (benchValue bm7 f sub) (benchValue bm8 f sub) ∧
        _interpolate_from_benchmarks 21 f sub
          = _lerp 21 20 23 (benchValue bm8 f sub) (benchValue bm9 f sub) ∧
        _interpolate_from_benchmarks 22 f sub
          = _lerp 22 20 23 (benchValue bm8 f sub) (benchValue bm9 f sub)) := by
  refine ⟨?_, ?_, ?_, ?_⟩
  · intro b hb f sub
    fin_cases hb <;> cases f <;> cases sub <;>
      simp [_interpolate_from_benchmarks, findExact, sorted_bm, MARKET_BENCHMARKS,
        bm0, bm1, bm2, bm3, bm4, bm5, bm6, bm7, bm8, bm9, benchValue]
  · intro s f sub hs
    have hnone : findExact s sorted_bm = none := by
      apply findExact_eq_none
      intro b hb
      fin_cases hb <;>
        simp [sorted_bm, MARKET_BENCHMARKS, bm0, bm1, bm2, bm3, bm4, bm5, bm6, bm7, bm8, bm9] <;>
        omega
    simp only [_interpolate_from_benchmarks, hnone]
    simp only [sorted_bm, MARKET_BENCHMARKS]
    rw [bracketLoop]
    rw [if_neg (by simp [bm0]; omega), if_pos (by simp [bm0]; omega)]
    simp [_lerp]
  · intro s f sub hs
    have hnone : findExact s sorted_bm = none := by
      apply findExact_eq_none
      intro b hb
      fin_cases hb <;>
        simp [sorted_bm, MARKET_BENCHMARKS, bm0, bm1, bm2, bm3, bm4, bm5, bm6, bm7, bm8, bm9] <;>
        omega
    have hall : ∀ b ∈ sorted_bm, b.score < s := by
      intro b hb
      fin_cases hb <;>
        simp [sorted_bm, MARKET_BENCHMARKS, bm0, bm1, bm2, bm3, bm4, bm5, bm6, bm7, bm8, bm9] <;>
        omega
    simp only [_interpolate_from_benchmarks, hnone]
    simp only [sorted_bm, MARKET_BENCHMARKS]
    rw [bracketLoop_all_lt _ _ (by simpa [sorted_bm, MARKET_BENCHMARKS] using hall)]
    simp [List.getLastD, _lerp]
  · intro f sub
    refine ⟨?_, ?_, ?_, ?_, ?_, ?_, ?_, ?_, ?_, ?_⟩ <;>
      simp [_interpolate_from_benchmarks, findExact, bracketLoop, sorted_bm,
        MARKET_BENCHMARKS, bm0, bm1, bm2, bm3, bm4, bm5, bm6, bm7, bm8, bm9,
        benchValue, _lerp]

/-- Witness for C4 at concrete inputs: score −2 clamps to the minimum
benchmark, score 30 to the maximum benchmark, and the grid score 6 is
an exact match. -/
theorem interpolate_c4_witness :
    ((-2 : ℤ) < 4 ∧
      _interpolate_from_benchmarks (-2) .hours .low = benchValue bm0 .hours .low) ∧
    ((23 : ℤ) < 30 ∧
      _interpolate_from_benchmarks 30 .rate .high = benchValue bm9 .rate .high) ∧
    (bm1 ∈ MARKET_BENCHMARKS ∧
      _interpolate_from_benchmarks bm1.score .hours .high = benchValue bm1 .hours .high) :=
  ⟨⟨by norm_num, interpolate_c4.2.1 (-2) .hours .low (by norm_num)⟩,
    ⟨by norm_num, interpolate_c4.2.2.1 30 .rate .high (by norm_num)⟩,
    ⟨by simp [MARKET_BENCHMARKS], interpolate_c4.1 bm1 (by simp [MARKET_BENCHMARKS]) .hours .high⟩⟩

/-- Python `str.lower()` on one character (ASCII range, which covers
every client-type string the system uses). -/
def pyLowerChar (c : Char) : Char :=
  if 65 ≤ c.toNat ∧ c.toNat ≤ 90 then Char.ofNat (c.toNat + 32) else c

/-- Python `client_type.lower()`. -/
def pyLower (s : String) : String := ⟨s.data.map pyLowerChar⟩

/-- `_logistic_acceptance(relative_price)`:
`P = L / (1 + e^(k*(x - x0)))` with the fitted constants L=0.92, k=8.5,
x0=1.18. -/
noncomputable def _logistic_acceptance (relative_price : ℚ) : ℝ :=
  0.92 / (1 + Real.exp (8.5 * ((relative_price : ℝ) - 1.18)))

/-- Python `round(x, 3)` on the exact real value. -/
noncomputable def round3R (x : ℝ) : ℚ := (round (x * 1000) : ℤ) / 1000

/-- Python `round(x, 1)` on the exact real value. -/
noncomputable def round1R (x : ℝ) : ℚ := (round (x * 10) : ℤ) / 10

/-- `max(0.05, min(0.95, x))`, the probability clamp. -/
noncomputable def clamp0595 (x : ℝ) : ℝ := max 0.05 (min 0.95 x)

/-- The `if/elif` client-type adjustment chain of
`acceptance_probability`, plus the independent risk chain. -/
def acceptAdjustment (ct classification : String) (relative risk_percent : ℚ) : ℚ :=
  (if ct = "student" ∧ classification = "Normal" then 0.10
   else if ct = "student" ∧ classification = "Moderate" then 0.05
   else if ct = "enterprise" ∧ 1 < relative then -0.10
   else if ct = "sme" ∧ relative ≤ 1 then 0.05
   else 0)
  + (if 25 < risk_percent then -0.10
     else if 18 < risk_percent then -0.05 else 0)

/-- The adjustment chain used inside the 17-point chart loop of
`acceptance_probability`.  Unlike `acceptAdjustment` it has no `sme`
branch. -/
def curveAdjustment (ct classification : String) (mult risk_percent : ℚ) : ℚ :=
  (if ct = "student" ∧ (classification = "Normal" ∨ classification = "Moderate") then
     (if classification = "Normal" then 0.10 else 0.05)
   else if ct = "enterprise" ∧ 1 < mult then -0.10
   else 0)
  + (if 25 < risk_percent then -0.10
     else if 18 < risk_percent then -0.05 else 0)

/-- The 17 price multipliers of the sampled acceptance curve. -/
def CURVE_MULTIPLIERS : List ℚ :=
  [0.60, 0.70, 0.75, 0.80, 0.85, 0.90, 0.95, 1.00, 1.05,
   1.10, 1.15, 1.20, 1.25, 1.30, 1.35, 1.40, 1.50]

/-- Return value of `acceptance_probability` (the `adjustment_reasons`
string list is omitted). -/
structure AcceptResult where
  probability : ℚ
  probability_pct : ℚ
  relative_price : ℚ
  base_acceptance : ℚ
  adjustment : ℚ
  verdict : String
  prices : List ℤ
  probabilities : List ℚ
  current_price : ℤ
  market_rate : ℤ

/-- `acceptance_probability(quoted_price, predicted_optimal_price,
classification, client_type, risk_percent)`. -/
noncomputable def acceptance_probability (quoted_price predicted_optimal_price : ℚ)
    (classification : String) (client_type : String := "startup")
    (risk_percent : ℚ := 8) : AcceptResult :=
  let relative := quoted_price / max predicted_optimal_price 1
  let base := _logistic_acceptance relative
  let ct := pyLower client_type
  let adjustment := acceptAdjustment ct classification relative risk_percent
  let probability := clamp0595 (base + (adjustment : ℝ))
  { probability := round3R probability
    probability_pct := round1R (probability * 100)
    relative_price := round3 relative
    base_acceptance := round3R base
    adjustment := round3 adjustment
    verdict := if (0.70 : ℝ) ≤ probability then "High"
      else if (0.45 : ℝ) ≤ probability then "Medium" else "Low"
    prices := CURVE_MULTIPLIERS.map fun mult => roundI (predicted_optimal_price * mult)
    probabilities := CURVE_MULTIPLIERS.map fun mult =>
      round3R (clamp0595 (_logistic_acceptance mult
        + (curveAdjustment ct classification mult risk_percent : ℝ)))
    current_price := roundI quoted_price
    market_rate := roundI predicted_optimal_price }

/-- The value of the logistic curve at relative price 1 lies in
[0.46, 0.9]: the exponential term `e^(-1.53)` is between 1/8 and 1. -/
theorem logistic_one_bounds :
    0.46 ≤ _logistic_acceptance 1 ∧ _logistic_acceptance 1 ≤ 0.9 := by
  have harg : (8.5 : ℝ) * (((1 : ℚ) : ℝ) - 1.18) = -1.53 := by push_cast; norm_num
  have hlt1 : Real.exp (-1.53) < 1 := by
    have h : Real.exp (-1.53 : ℝ) < Real.exp 0 := Real.exp_lt_exp.mpr (by norm_num)
    simpa [Real.exp_zero] using h
  have hgt : (1 / 8 : ℝ) < Real.exp (-1.53) := by
    have h2 : Real.exp 2 < 8 := by
      have e1 : Real.exp 2 = Real.exp 1 * Real.exp 1 := by
        rw [← Real.exp_add]; norm_num
      nlinarith [Real.exp_one_lt_d9, Real.exp_pos 1]
    have hle : Real.exp (-2) ≤ Real.exp (-1.53) := Real.exp_le_exp.mpr (by norm_num)
    have he : Real.exp (-2) = (Real.exp 2)⁻¹ := by rw [Real.exp_neg]
    have h8 : (1 / 8 : ℝ) < (Real.exp 2)⁻¹ := by
      rw [one_div]
      exact (inv_lt_inv₀ (by norm_num) (Real.exp_pos 2)).mpr h2
    linarith [he ▸ hle]
  have hpos : (0 : ℝ) < 1 + Real.exp (-1.53) := by positivity
  constructor
  · rw [_logistic_acceptance, harg, le_div_iff hpos]
    nlinarith
  · rw [_logistic_acceptance, harg, div_le_iff hpos]
    nlinarith

/-- The clamp is the identity on [0.05, 0.95]. -/
theorem clamp0595_eq_self {x : ℝ} (h1 : 0.05 ≤ x) (h2 : x ≤ 0.95) :
    clamp0595 x = x := by
  rw [clamp0595, min_eq_right h2, max_eq_right h1]

/-- Claim C1 (divergence witness): at
`acceptance_probability(100, 100, "Normal", "sme", 8)` the relative
price is exactly 1, the primary probability includes the +0.05 sme
adjustment, but the sampled-curve entry at multiplier 1.00 (index 7)
does not — the chart loop has no sme branch — so the two differ. -/
theorem acceptance_curve_sme_c1 :
    (acceptance_probability 100 100 "Normal" "sme" 8).probabilities.getD 7 0
      ≠ (acceptance_probability 100 100 "Normal" "sme" 8).probability := by
  have hct : pyLower "sme" = "sme" := rfl
  have hrel : (100 : ℚ) / max 100 1 = 1 := by norm_num
  have hadj : acceptAdjustment "sme" "Normal" 1 8 = 0.05 := by
    rw [acceptAdjustment,
      if_neg (fun h => absurd h.1 (by decide)),
      if_neg (fun h => absurd h.1 (by decide)),
      if_neg (fun h => absurd h.1 (by decide)),
      if_pos ⟨rfl, le_refl (1 : ℚ)⟩,
      if_neg (by norm_num), if_neg (by norm_num)]
    norm_num
  have hcadj : curveAdjustment "sme" "Normal" 1.00 8 = 0 := by
    rw [curveAdjustment,
      if_neg (fun h => absurd h.1 (by decide)),
      if_neg (fun h => absurd h.1 (by decide)),
      if_neg (by norm_num), if_neg (by norm_num)]
    norm_num
  simp only [acceptance_probability, hct, hrel, hadj, CURVE_MULTIPLIERS, List.map,
    List.getD_cons_succ, List.getD_cons_zero, hcadj]
  have h100 : (1.00 : ℚ) = 1 := by norm_num
  rw [h100]
  have hb := logistic_one_bounds
  have hL0 : clamp0595 (_logistic_acceptance 1 + ((0 : ℚ) : ℝ))
      = _logistic_acceptance 1 := by
    rw [show ((0 : ℚ) : ℝ) = 0 by norm_num, add_zero]
    exact clamp0595_eq_self (by linarith [hb.1]) (by linarith [hb.2])
  have hL5 : clamp0595 (_logistic_acceptance 1 + ((0.05 : ℚ) : ℝ))
      = _logistic_acceptance 1 + 0.05 := by
    rw [show ((0.05 : ℚ) : ℝ) = 0.05 by norm_num]
    exact clamp0595_eq_self (by linarith [hb.1]) (by linarith [hb.2])
  rw [hL0, hL5]
  simp only [round3R]
  have hsum : (_logistic_acceptance 1 + 0.05) * 1000
      = _logistic_acceptance 1 * 1000 + ((50 : ℤ) : ℝ) := by
    push_cast; ring
  rw [hsum, round_add_int]
  intro h
  field_simp at h

/-- `HOURS_RANGE.get(classification, (30, 50))`. -/
def HOURS_RANGE (classification : String) : ℚ × ℚ :=
  if classification = "Normal" then (25, 50)
  else if classification = "Moderate" then (60, 140)
  else if classification = "High" then (120, 300)
  else if classification = "Industrial" then (250, 600)
  else (30, 50)

/-- Return value of `estimate_hours` (the two formatted range strings
are omitted; they repeat `range_min`/`range_max`). -/
structure HoursResult where
  range_min : ℤ
  range_max : ℤ
  estimated_hours : ℤ

/-- `estimate_hours(total_score, classification)`: 70% benchmark
midpoint, 30% tier-formula midpoint (clamped into the tier range). -/
def estimate_hours (total_score : ℤ) (classification : String) : HoursResult :=
  let bm_lo := _interpolate_from_benchmarks total_score .hours .low
  let bm_hi := _interpolate_from_benchmarks total_score .hours .high
  let tier := HOURS_RANGE classification
  let formula_mid0 := (tier.1 + tier.2) / 2 + (total_score : ℚ) * 2
  let formula_mid := max tier.1 (min tier.2 formula_mid0)
  { range_min := roundI bm_lo
    range_max := roundI bm_hi
    estimated_hours := roundI (0.7 * ((bm_lo + bm_hi) / 2) + 0.3 * formula_mid) }

/-- An implementation of the `random` module: a state type, `seed`, and
the three sampling primitives the simulator calls (`gauss`, `uniform`,
`random`), each returning the drawn value and the successor state.  The
simulator is verified for an arbitrary implementation because its
determinism does not depend on the generator's internals. -/
structure RNGImpl where
  State : Type
  seed : ℕ → State
  gauss : State → ℚ → ℚ → ℚ × State
  uniform : State → ℚ → ℚ → ℚ × State
  rand : State → ℚ × State

/-- One iteration of the Monte Carlo loop, threading the RNG state in
the exact order the code draws: `gauss` (hours), `uniform` (hardware),
`random` (rework trigger), `uniform` (rework magnitude, only when
triggered), `gauss` (delay weeks). -/
def mcSample (R : RNGImpl) (base_hours hourly_rate hardware_cost risk_percent
    hours_sigma rework_probability delay_cost_per_week : ℚ) (s : R.State) :
    ℚ × R.State :=
  let g1 := R.gauss s base_hours hours_sigma
  let sim_hours := max (base_hours * 0.5) g1.1
  let u1 := R.uniform g1.2 0.85 1.15
  let sim_hardware := hardware_cost * u1.1
  let r1 := R.rand u1.2
  let rework : ℚ × R.State :=
    if r1.1 < rework_probability then
      let u2 := R.uniform r1.2 0.08 0.25
      (sim_hours * hourly_rate * u2.1, u2.2)
    else (0, r1.2)
  let g2 := R.gauss rework.2 0 (0.8 + risk_percent / 30)
  let delay_weeks := max 0 g2.1
  let delay_total := delay_weeks * delay_cost_per_week
  let labor := sim_hours * hourly_rate
  let risk_buf := labor * (risk_percent / 100)
  (labor + sim_hardware + risk_buf + rework.1 + delay_total, g2.2)

/-- The `for _ in range(num_simulations)` loop collecting the sampled
totals in order. -/
def mcLoop (R : RNGImpl) (base_hours hourly_rate hardware_cost risk_percent
    hours_sigma rework_probability delay_cost_per_week : ℚ) :
    ℕ → R.State → List ℚ × R.State
  | 0, s => ([], s)
  | n + 1, s =>
    let t := mcSample R base_hours hourly_rate hardware_cost risk_percent
      hours_sigma rework_probability delay_cost_per_week s
    let rest := mcLoop R base_hours hourly_rate hardware_cost risk_percent
      hours_sigma rework_probability delay_cost_per_week n t.2
    (t.1 :: rest.1, rest.2)

/-- Python `int(n * q)` for the percentile indices (truncation = floor
for the non-negative products used). -/
def pctIdx (n : ℕ) (q : ℚ) : ℕ := (⌊(n : ℚ) * q⌋).toNat

/-- `bin_width = (max-min)/num_bins if max > min else 1`. -/
def histBinWidth (minv maxv : ℚ) : ℚ :=
  if minv < maxv then (maxv - minv) / 20 else 1

/-- Membership of a sample in histogram bin `i`:
`bin_start <= r < bin_start + bin_width` with `bin_start = min + i*w`. -/
def inBin (minv w : ℚ) (i : ℕ) (r : ℚ) : Prop :=
  minv + i * w ≤ r ∧ r < minv + i * w + w

instance (minv w : ℚ) (i : ℕ) (r : ℚ) : Decidable (inBin minv w i r) :=
  instDecidableAnd

/-- The 20 bin frequencies of the histogram over the sorted results. -/
def histFrequency (results : List ℚ) : List ℕ :=
  let minv := results.headD 0
  let maxv := results.getLastD 0
  let w := histBinWidth minv maxv
  (List.range 20).map fun i => results.countP fun r => decide (inBin minv w i r)

/-- The 20 bin midpoints of the histogram (rounded). -/
def histBins (results : List ℚ) : List ℤ :=
  let minv := results.headD 0
  let maxv := results.getLastD 0
  let w := histBinWidth minv maxv
  (List.range 20).map fun i => roundI (minv + i * w + w / 2)

/-- Python `round(x, 1)` on the exact rational value. -/
def round1 (x : ℚ) : ℚ := (round (x * 10) : ℤ) / 10

/-- Return value of `monte_carlo_simulation`. -/
structure MCResult where
  bins : List ℤ
  frequency : List ℕ
  mean : ℤ
  median : ℤ
  best_case : ℤ
  worst_case : ℤ
  p25 : ℤ
  p75 : ℤ
  p90 : ℤ
  confidence_90 : ℤ × ℤ
  overrun_probability_pct : ℚ
  num_simulations : ℕ

/-- `monte_carlo_simulation(...)`.  `entryState` models the state of the
global `random` module at call time; the first statement of the
function, `random.seed(42)`, discards it. -/
def monte_carlo_simulation (R : RNGImpl) (entryState : R.State)
    (base_hours hourly_rate : ℚ) (hardware_cost : ℚ := 0) (risk_percent : ℚ := 8)
    (has_ai : Bool := false) (custom_pcb : Bool := false)
    (rework_probability : ℚ := 0.15) (delay_cost_per_week : ℚ := 5000)
    (num_simulations : ℕ := 5000) : MCResult :=
  let s0 := R.seed 42
  let hours_sigma0 := base_hours * (0.10 + risk_percent / 100)
  let hours_sigma := if has_ai then hours_sigma0 * 1.3 else hours_sigma0
  let rework_p := if custom_pcb then min 0.35 (rework_probability + 0.10)
    else rework_probability
  let loop := mcLoop R base_hours hourly_rate hardware_cost risk_percent
    hours_sigma rework_p delay_cost_per_week num_simulations s0
  let results := loop.1.mergeSort fun a b => decide (a ≤ b)
  let n := results.length
  let mean_val := results.sum / (n : ℚ)
  let p5 := results.getD (pctIdx n 0.05) 0
  let p25v := results.getD (pctIdx n 0.25) 0
  let p50 := results.getD (pctIdx n 0.50) 0
  let p75v := results.getD (pctIdx n 0.75) 0
  let p90v := results.getD (pctIdx n 0.90) 0
  let p95 := results.getD (pctIdx n 0.95) 0
  let simple_est := base_hours * hourly_rate + hardware_cost
  let overrun_count := results.countP fun r => decide (simple_est * 1.1 < r)
  { bins := histBins results
    frequency := histFrequency results
    mean := roundI mean_val
    median := roundI p50
    best_case := roundI p5
    worst_case := roundI p95
    p25 := roundI p25v
    p75 := roundI p75v
    p90 := roundI p90v
    confidence_90 := (roundI p5, roundI p95)
    overrun_probability_pct := round1 ((overrun_count : ℚ) / (n : ℚ) * 100)
    num_simulations := num_simulations }

/-- Claim C5: the simulator's output is identical for any two states of
the global random generator at entry — `random.seed(42)` overwrites the
state before any draw — so two calls with identical arguments return
identical output in every field. -/
theorem monte_carlo_deterministic_c5 :
    ∀ (R : RNGImpl) (s1 s2 : R.State)
      (base_hours hourly_rate hardware_cost risk_percent : ℚ)
      (has_ai custom_pcb : Bool)
      (rework_probability delay_cost_per_week : ℚ) (num_simulations : ℕ),
      monte_carlo_simulation R s1 base_hours hourly_rate hardware_cost risk_percent
          has_ai custom_pcb rework_probability delay_cost_per_week num_simulations
        = monte_carlo_simulation R s2 base_hours hourly_rate hardware_cost risk_percent
          has_ai custom_pcb rework_probability delay_cost_per_week num_simulations :=
  fun _ _ _ _ _ _ _ _ _ _ _ _ => rfl


/-- Counting a disjoint pointwise union splits into a sum of counts. -/
theorem countP_disjoint_union (q q1 q2 : ℚ → Bool)
    (hu : ∀ r, q r = (q1 r || q2 r)) (hd : ∀ r, ¬(q1 r = true ∧ q2 r = true)) :
    ∀ l : List ℚ, l.countP q = l.countP q1 + l.countP q2 := by
  intro l
  induction l with
  | nil => rfl
  | cons r t ih =>
    simp only [List.countP_cons, ih, hu r]
    have := hd r
    rcases h1 : q1 r <;> rcases h2 : q2 r <;> simp_all <;> omega

/-- The union of the first `k` histogram bins is the single half-open
interval `[min, min + k·w)` (the bins tile the range without gaps). -/
def prefixBin (minv w : ℚ) (k : ℕ) (r : ℚ) : Prop :=
  minv ≤ r ∧ r < minv + k * w

instance (minv w : ℚ) (k : ℕ) (r : ℚ) : Decidable (prefixBin minv w k r) :=
  instDecidableAnd

/-- Summing the first `k` bin counts equals counting the prefix
interval, provided the bin width is non-negative. -/
theorem sum_bin_counts (minv w : ℚ) (hw : 0 ≤ w) (l : List ℚ) :
    ∀ k : ℕ,
      ((List.range k).map fun i => l.countP fun r => decide (inBin minv w i r)).sum
        = l.countP fun r => decide (prefixBin minv w k r) := by
  intro k
  induction k with
  | zero =>
    simp only [List.range_zero, List.map_nil, List.sum_nil]
    symm
    rw [List.countP_eq_zero]
    intro r _
    simp only [decide_eq_true_eq]
    rintro ⟨h1, h2⟩
    push_cast at h2
    simp only [zero_mul, add_zero] at h2
    linarith
  | succ k ih =>
    rw [List.range_succ, List.map_append, List.sum_append]
    simp only [List.map_cons, List.map_nil, List.sum_cons, List.sum_nil, add_zero]
    rw [ih]
    rw [← countP_disjoint_union (fun r => decide (prefixBin minv w (k + 1) r))
      (fun r => decide (prefixBin minv w k r))
      (fun r => decide (inBin minv w k r))]
    · intro r
      rw [show (decide (prefixBin minv w k r) || decide (inBin minv w k r))
            = decide (prefixBin minv w k r ∨ inBin minv w k r) by
          by_cases h1 : prefixBin minv w k r <;>
            by_cases h2 : inBin minv w k r <;> simp [h1, h2]]
      rw [decide_eq_decide]
      simp only [prefixBin, inBin]
      push_cast
      constructor
      · rintro ⟨h1, h2⟩
        rcases lt_or_le r (minv + (k : ℚ) * w) with h | h
        · exact Or.inl ⟨h1, h⟩
        · exact Or.inr ⟨h, by linarith⟩
      · rintro (⟨h1, h2⟩ | ⟨h1, h2⟩)
        · refine ⟨h1, ?_⟩
          linarith
        · have hkw : (0 : ℚ) ≤ (k : ℚ) * w := by positivity
          exact ⟨by linarith, by linarith⟩
    · intro r
      simp only [decide_eq_true_eq]
      rintro ⟨⟨_, h2⟩, ⟨h3, _⟩⟩
      linarith

/-- The maximum value lies in none of the 20 bins when the bins exactly
tile `[min, max)` with positive width. -/
theorem max_in_no_bin {m M w : ℚ} (hwpos : 0 < w) (h20 : m + 20 * w = M) :
    ∀ i < 20, ¬ inBin m w i M := by
  intro i hi hin
  rcases hin with ⟨_, h2⟩
  have hic : (i : ℚ) + 1 ≤ 20 := by exact_mod_cast hi
  nlinarith

/-- A list whose last element fails the predicate has `countP` at most
`length − 1`. -/
theorem countP_le_of_getLast_fails {p : ℚ → Bool} {l : List ℚ} (hne : l ≠ [])
    (hlast : p (l.getLast hne) = false) : l.countP p ≤ l.length - 1 := by
  have hsplit : l.dropLast ++ [l.getLast hne] = l := List.dropLast_append_getLast hne
  calc l.countP p = (l.dropLast ++ [l.getLast hne]).countP p := by rw [hsplit]
    _ = l.dropLast.countP p + [l.getLast hne].countP p := List.countP_append _ _ _
    _ ≤ l.dropLast.length := by
        have h0 : [l.getLast hne].countP p = 0 := by
          simp [List.countP_cons, hlast]
        rw [h0, Nat.add_zero]
        exact List.countP_le_length _
    _ ≤ l.length - 1 := by rw [List.length_dropLast]

/-- Claim C10: whenever the maximum sorted sample strictly exceeds the
minimum, (a) the maximum lies in none of the 20 histogram bins (each
bin is half-open on the right and, in exact arithmetic, the last bin's
upper edge equals the maximum), and (b) the 20 frequencies of
`histFrequency` sum to at most `length − 1`. -/
theorem histogram_c10 :
    ∀ results : List ℚ, results ≠ [] →
      results.headD 0 < results.getLastD 0 →
      (∀ i < 20, ¬ inBin (results.headD 0)
          (histBinWidth (results.headD 0) (results.getLastD 0)) i
          (results.getLastD 0)) ∧
      (histFrequency results).sum ≤ results.length - 1 := by
  intro results hne hlt
  have hwdef : histBinWidth (results.headD 0) (results.getLastD 0)
      = (results.getLastD 0 - results.headD 0) / 20 := by
    rw [histBinWidth, if_pos hlt]
  have hwpos : 0 < histBinWidth (results.headD 0) (results.getLastD 0) := by
    rw [hwdef]
    have : 0 < results.getLastD 0 - results.headD 0 := by linarith
    positivity
  have h20 : results.headD 0
      + 20 * histBinWidth (results.headD 0) (results.getLastD 0)
      = results.getLastD 0 := by
    rw [hwdef]
    field_simp
  refine ⟨max_in_no_bin hwpos h20, ?_⟩
  have hfreq : (histFrequency results).sum
      = results.countP fun r => decide (prefixBin (results.headD 0)
          (histBinWidth (results.headD 0) (results.getLastD 0)) 20 r) := by
    rw [histFrequency]
    exact sum_bin_counts _ _ (le_of_lt hwpos) results 20
  rw [hfreq]
  have hlastval : results.getLast hne = results.getLastD 0 := by
    rw [List.getLastD_eq_getLast?, List.getLast?_eq_getLast results hne]
    rfl
  refine countP_le_of_getLast_fails hne ?_
  rw [hlastval]
  apply decide_eq_false
  rintro ⟨_, hcontra⟩
  push_cast at hcontra
  rw [h20] at hcontra
  exact lt_irrefl _ hcontra

/-- Witness for C10 on the concrete sorted sample list `[0, 20]`. -/
theorem histogram_c10_witness :
    (∀ i < 20, ¬ inBin (([0, 20] : List ℚ).headD 0)
        (histBinWidth (([0, 20] : List ℚ).headD 0) (([0, 20] : List ℚ).getLastD 0)) i
        (([0, 20] : List ℚ).getLastD 0)) ∧
    (histFrequency ([0, 20] : List ℚ)).sum ≤ ([0, 20] : List ℚ).length - 1 :=
  histogram_c10 [0, 20] (by simp) (by norm_num [List.getLastD])

/-- `margins = list(range(5, 41))`: the swept margin percentages. -/
def MARGINS : List ℕ := List.range' 5 36

/-- `price × P(accept)` for one margin: the expected revenue the
optimizer maximises (`price = base_cost*(1+m/100)`, probability from
the acceptance model with the quote priced at `price` against optimal
price `base_cost`). -/
noncomputable def expected_rev (base_cost : ℚ) (classification client_type : String)
    (risk_percent : ℚ) (m : ℕ) : ℚ :=
  let price := base_cost * (1 + (m : ℚ) / 100)
  price * (acceptance_probability price base_cost classification
    client_type risk_percent).probability

/-- The running-best loop of `optimize_profit`
(`if rev > best_revenue: best_revenue, best_margin = rev, m`). -/
def optLoop (rev : ℕ → ℚ) : List ℕ → ℕ × ℚ → ℕ × ℚ
  | [], p => p
  | m :: t, p => optLoop rev t (if p.2 < rev m then (m, rev m) else p)

/-- Behaviour of the running-best loop over a strictly ascending margin
list: the final best revenue bounds every swept revenue and the initial
value, and either no margin beat the initial value (state unchanged) or
the final margin is the first (smallest) margin attaining the final
revenue. -/
theorem optLoop_spec (rev : ℕ → ℚ) :
    ∀ (l : List ℕ) (bm : ℕ) (br : ℚ), l.Pairwise (· < ·) →
      br ≤ (optLoop rev l (bm, br)).2 ∧
      (∀ m ∈ l, rev m ≤ (optLoop rev l (bm, br)).2) ∧
      (((optLoop rev l (bm, br)).2 = br ∧ (optLoop rev l (bm, br)).1 = bm) ∨
        ((optLoop rev l (bm, br)).1 ∈ l ∧
          (optLoop rev l (bm, br)).2 = rev (optLoop rev l (bm, br)).1 ∧
          br < (optLoop rev l (bm, br)).2 ∧
          (∀ m ∈ l, rev m = (optLoop rev l (bm, br)).2 →
            (optLoop rev l (bm, br)).1 ≤ m))) := by
  intro l
  induction l with
  | nil =>
    intro bm br _
    exact ⟨le_refl _, by simp, Or.inl ⟨rfl, rfl⟩⟩
  | cons m t ih =>
    intro bm br hpw
    have hlt : ∀ x ∈ t, m < x := (List.pairwise_cons.mp hpw).1
    have hpt : t.Pairwise (· < ·) := (List.pairwise_cons.mp hpw).2
    by_cases h : br < rev m
    · have hstep : optLoop rev (m :: t) (bm, br) = optLoop rev t (m, rev m) := by
        simp only [optLoop, if_pos h]
      obtain ⟨ih1, ih2, ih3⟩ := ih m (rev m) hpt
      rw [hstep]
      refine ⟨le_trans (le_of_lt h) ih1, ?_, ?_⟩
      · intro x hx
        rcases List.mem_cons.mp hx with rfl | hx
        · exact ih1
        · exact ih2 x hx
      · rcases ih3 with ⟨h2eq, h1eq⟩ | ⟨hmem, heq, hlt2, hfirst⟩
        · refine Or.inr ⟨?_, ?_, ?_, ?_⟩
          · rw [h1eq]; exact List.mem_cons_self m t
          · rw [h2eq, h1eq]
          · rw [h2eq]; exact h
          · intro x hx _
            rw [h1eq]
            rcases List.mem_cons.mp hx with rfl | hx
            · exact le_refl x
            · exact le_of_lt (hlt x hx)
        · refine Or.inr ⟨List.mem_cons_of_mem m hmem, heq, lt_trans h hlt2, ?_⟩
          intro x hx hxeq
          rcases List.mem_cons.mp hx with rfl | hx
          · exact absurd hxeq (ne_of_lt hlt2)
          · exact hfirst x hx hxeq
    · have hstep : optLoop rev (m :: t) (bm, br) = optLoop rev t (bm, br) := by
        simp only [optLoop, if_neg h]
      push_neg at h
      obtain ⟨ih1, ih2, ih3⟩ := ih bm br hpt
      rw [hstep]
      refine ⟨ih1, ?_, ?_⟩
      · intro x hx
        rcases List.mem_cons.mp hx with rfl | hx
        · exact le_trans h ih1
        · exact ih2 x hx
      · rcases ih3 with ⟨h2eq, h1eq⟩ | ⟨hmem, heq, hlt2, hfirst⟩
        · exact Or.inl ⟨h2eq, h1eq⟩
        · refine Or.inr ⟨List.mem_cons_of_mem m hmem, heq, hlt2, ?_⟩
          intro x hx hxeq
          rcases List.mem_cons.mp hx with rfl | hx
          · exfalso
            rw [hxeq] at h
            exact absurd hlt2 (not_lt.mpr h)
          · exact hfirst x hx hxeq

/-- Return value of `optimize_profit`. -/
structure OptResult where
  margins : List ℕ
  expected_revenue : List ℤ
  optimal_margin : ℕ
  optimal_price : ℤ
  optimal_revenue : ℤ
  all_margins : List ℕ
  all_revenue : List ℤ

/-- `optimize_profit(base_cost, classification, client_type,
risk_percent)`: sweep margins 5..40, keep the first strict maximum of
expected revenue (initial best: margin 5, revenue 0). -/
noncomputable def optimize_profit (base_cost : ℚ) (classification : String)
    (client_type : String := "startup") (risk_percent : ℚ := 8) : OptResult :=
  let rev := expected_rev base_cost classification client_type risk_percent
  let best := optLoop rev MARGINS (5, 0)
  let all_revenue := MARGINS.map fun m => roundI (rev m)
  let chart_margins : List ℕ := [5, 10, 15, 20, 25, 30, 35, 40]
  { margins := chart_margins
    expected_revenue := chart_margins.map fun m => all_revenue.getD (m - 5) 0
    optimal_margin := best.1
    optimal_price := roundI (base_cost * (1 + (best.1 : ℚ) / 100))
    optimal_revenue := roundI best.2
    all_margins := MARGINS
    all_revenue := all_revenue }

/-- `round` is monotone (round half up = floor of `x + 1/2`). -/
theorem round_mono_r {x y : ℝ} (h : x ≤ y) : round x ≤ round y := by
  rw [round_eq, round_eq]
  exact Int.floor_le_floor (by linarith)

/-- `round3R` is monotone. -/
theorem round3R_mono {x y : ℝ} (h : x ≤ y) : round3R x ≤ round3R y := by
  rw [round3R, round3R]
  have hr : round (x * 1000) ≤ round (y * 1000) := round_mono_r (by linarith)
  gcongr

/-- The clamp lands in `[0.05, 0.95]`. -/
theorem clamp0595_mem (x : ℝ) : 0.05 ≤ clamp0595 x ∧ clamp0595 x ≤ 0.95 :=
  ⟨le_max_left _ _, max_le (by norm_num) (min_le_left _ _)⟩

/-- The clamp is monotone. -/
theorem clamp0595_mono {x y : ℝ} (h : x ≤ y) : clamp0595 x ≤ clamp0595 y :=
  max_le_max (le_refl _) (min_le_min (le_refl _) h)

/-- Rounding a clamped probability to 3 decimals keeps it in
`[0.05, 0.95]` (as `[1/20, 19/20]` over `ℚ`). -/
theorem round3R_clamp_bounds (x : ℝ) :
    1/20 ≤ round3R (clamp0595 x) ∧ round3R (clamp0595 x) ≤ 19/20 := by
  obtain ⟨h1, h2⟩ := clamp0595_mem x
  constructor
  · rw [round3R]
    have h50 : (50 : ℤ) ≤ round (clamp0595 x * 1000) := by
      have hle : ((50 : ℤ) : ℝ) ≤ clamp0595 x * 1000 := by push_cast; nlinarith
      have := round_mono_r hle
      rwa [round_intCast] at this
    rw [show (1/20 : ℚ) = 50/1000 by norm_num]
    gcongr
    exact_mod_cast h50
  · rw [round3R]
    have h950 : round (clamp0595 x * 1000) ≤ (950 : ℤ) := by
      have hle : clamp0595 x * 1000 ≤ ((950 : ℤ) : ℝ) := by push_cast; nlinarith
      have := round_mono_r hle
      rwa [round_intCast] at this
    rw [show (19/20 : ℚ) = 950/1000 by norm_num]
    gcongr
    exact_mod_cast h950

/-- The `probability` field, written out. -/
theorem probability_formula (q p : ℚ) (cls ct : String) (rp : ℚ) :
    (acceptance_probability q p cls ct rp).probability
      = round3R (clamp0595 (_logistic_acceptance (q / max p 1)
          + (acceptAdjustment (pyLower ct) cls (q / max p 1) rp : ℝ))) := rfl

/-- Claim-independent bound: every returned probability lies in
`[1/20, 19/20]` = `[0.05, 0.95]`. -/
theorem probability_bounds (q p : ℚ) (cls ct : String) (rp : ℚ) :
    1/20 ≤ (acceptance_probability q p cls ct rp).probability ∧
      (acceptance_probability q p cls ct rp).probability ≤ 19/20 := by
  rw [probability_formula]
  exact round3R_clamp_bounds _

/-- The logistic curve is antitone in the relative price. -/
theorem logistic_antitone {r1 r2 : ℚ} (h : r1 ≤ r2) :
    _logistic_acceptance r2 ≤ _logistic_acceptance r1 := by
  rw [_logistic_acceptance, _logistic_acceptance]
  have hcast : ((r1 : ℝ)) ≤ r2 := by exact_mod_cast h
  have he : Real.exp (8.5 * ((r1 : ℝ) - 1.18)) ≤ Real.exp (8.5 * ((r2 : ℝ) - 1.18)) :=
    Real.exp_le_exp.mpr (by linarith)
  have h1 : (0 : ℝ) < 1 + Real.exp (8.5 * ((r1 : ℝ) - 1.18)) := by positivity
  have h2 : (0 : ℝ) < 1 + Real.exp (8.5 * ((r2 : ℝ) - 1.18)) := by positivity
  rw [div_le_div_iff h2 h1]
  nlinarith

/-- The client-type adjustment chain gives the same value at any two
relative prices that are both at or below 1 (only the `enterprise`
branch tests `relative > 1` and only the `sme` branch tests
`relative <= 1`). -/
theorem acceptAdjustment_eq_of_le_one {ct cls : String} {r1 r2 rp : ℚ}
    (h1 : r1 ≤ 1) (h2 : r2 ≤ 1) :
    acceptAdjustment ct cls r1 rp = acceptAdjustment ct cls r2 rp := by
  rw [acceptAdjustment, acceptAdjustment]
  congr 1
  by_cases hc1 : ct = "student" ∧ cls = "Normal"
  · rw [if_pos hc1, if_pos hc1]
  · rw [if_neg hc1, if_neg hc1]
    by_cases hc2 : ct = "student" ∧ cls = "Moderate"
    · rw [if_pos hc2, if_pos hc2]
    · rw [if_neg hc2, if_neg hc2]
      have he1 : ¬(ct = "enterprise" ∧ 1 < r1) := fun hc => absurd hc.2 (not_lt.mpr h1)
      have he2 : ¬(ct = "enterprise" ∧ 1 < r2) := fun hc => absurd hc.2 (not_lt.mpr h2)
      rw [if_neg he1, if_neg he2]
      by_cases hsme : ct = "sme"
      · have hs1 : ct = "sme" ∧ r1 ≤ 1 := ⟨hsme, h1⟩
        have hs2 : ct = "sme" ∧ r2 ≤ 1 := ⟨hsme, h2⟩
        rw [if_pos hs1, if_pos hs2]
      · have hs1 : ¬(ct = "sme" ∧ r1 ≤ 1) := fun hc => hsme hc.1
        have hs2 : ¬(ct = "sme" ∧ r2 ≤ 1) := fun hc => hsme hc.1
        rw [if_neg hs1, if_neg hs2]

/-- For a negative base cost the returned probability is monotone in
the price factor: a larger factor gives a more negative relative price,
hence a larger logistic value, with identical adjustments. -/
theorem probability_mono_neg {base cs cl : ℚ} (hb : base < 0) (hcs : 0 < cs)
    (h : cs ≤ cl) (cls ct : String) (rp : ℚ) :
    (acceptance_probability (base * cs) base cls ct rp).probability
      ≤ (acceptance_probability (base * cl) base cls ct rp).probability := by
  have hmax : max base 1 = 1 := max_eq_right (by linarith)
  rw [probability_formula, probability_formula, hmax, div_one, div_one]
  have hrel : base * cl ≤ base * cs := mul_le_mul_of_nonpos_left h (le_of_lt hb)
  have hs1 : base * cs ≤ 1 := le_of_lt (lt_of_lt_of_le (mul_neg_of_neg_of_pos hb hcs) (by norm_num))
  have hl1 : base * cl ≤ 1 := le_of_lt (lt_of_lt_of_le (mul_neg_of_neg_of_pos hb (lt_of_lt_of_le hcs h)) (by norm_num))
  have hadj : acceptAdjustment (pyLower ct) cls (base * cs) rp
      = acceptAdjustment (pyLower ct) cls (base * cl) rp :=
    acceptAdjustment_eq_of_le_one hs1 hl1
  apply round3R_mono
  apply clamp0595_mono
  rw [hadj]
  have hlog := logistic_antitone hrel
  linarith

/-- For a negative base cost the expected revenue is maximal at margin
5: the price factor grows with the margin while the probability only
grows, so the (negative) product shrinks. -/
theorem expected_rev_le_five {base : ℚ} (hb : base < 0) (cls ct : String) (rp : ℚ)
    {m : ℕ} (hm : 5 ≤ m) :
    expected_rev base cls ct rp m ≤ expected_rev base cls ct rp 5 := by
  rw [expected_rev, expected_rev]
  have hc5 : (0 : ℚ) < 1 + ((5 : ℕ) : ℚ) / 100 := by norm_num
  have hcle : 1 + ((5 : ℕ) : ℚ) / 100 ≤ 1 + (m : ℚ) / 100 := by
    push_cast
    have h5 : (5 : ℚ) ≤ (m : ℚ) := by exact_mod_cast hm
    linarith
  have hmono := probability_mono_neg hb hc5 hcle cls ct rp
  have hq5 := probability_bounds (base * (1 + ((5 : ℕ) : ℚ) / 100)) base cls ct rp
  have hqm := probability_bounds (base * (1 + (m : ℚ) / 100)) base cls ct rp
  have hprice : base * (1 + (m : ℚ) / 100) ≤ base * (1 + ((5 : ℕ) : ℚ) / 100) :=
    mul_le_mul_of_nonpos_left hcle (le_of_lt hb)
  have hp5neg : base * (1 + ((5 : ℕ) : ℚ) / 100) < 0 := mul_neg_of_neg_of_pos hb hc5
  nlinarith [hmono, hq5.1, hqm.1, hprice, hp5neg]

/-- Claim C6: for every base cost, classification, client type and risk
percentage, the returned `optimal_margin` is the arg-max over the full
integer sweep 5..40 of expected revenue, and when several margins
attain the maximum the smallest such margin is returned (the running
comparison uses strict `>`). -/
theorem optimize_profit_argmax_c6 :
    ∀ (base_cost : ℚ) (classification client_type : String) (risk_percent : ℚ),
      (optimize_profit base_cost classification client_type risk_percent).optimal_margin
          ∈ MARGINS ∧
      (∀ m ∈ MARGINS,
        expected_rev base_cost classification client_type risk_percent m
          ≤ expected_rev base_cost classification client_type risk_percent
              ((optimize_profit base_cost classification client_type
                risk_percent).optimal_margin)) ∧
      (∀ m ∈ MARGINS,
        expected_rev base_cost classification client_type risk_percent m
            = expected_rev base_cost classification client_type risk_percent
                ((optimize_profit base_cost classification client_type
                  risk_percent).optimal_margin) →
          (optimize_profit base_cost classification client_type
            risk_percent).optimal_margin ≤ m) := by
  intro base cls ct rp
  have hopt : (optimize_profit base cls ct rp).optimal_margin
      = (optLoop (expected_rev base cls ct rp) MARGINS (5, 0)).1 := by
    simp only [optimize_profit]
  have hpw : MARGINS.Pairwise (· < ·) := by decide
  obtain ⟨hinit, hbound, hcase⟩ := optLoop_spec (expected_rev base cls ct rp) MARGINS 5 0 hpw
  rcases lt_trichotomy base 0 with hneg | hzero | hpos
  · have hall : ∀ x ∈ MARGINS, expected_rev base cls ct rp x ≤ 0 := by
      intro x _
      rw [expected_rev]
      have hxpos : (0 : ℚ) < 1 + (x : ℚ) / 100 := by positivity
      have hprice : base * (1 + (x : ℚ) / 100) < 0 := mul_neg_of_neg_of_pos hneg hxpos
      have hprob := (probability_bounds (base * (1 + (x : ℚ) / 100)) base cls ct rp).1
      nlinarith
    have hres : (optLoop (expected_rev base cls ct rp) MARGINS (5, 0)).2 = 0 ∧
        (optLoop (expected_rev base cls ct rp) MARGINS (5, 0)).1 = 5 := by
      rcases hcase with h | ⟨hmem, heq, hlt2, _⟩
      · exact h
      · exfalso
        have hx := hall _ hmem
        rw [← heq] at hx
        exact absurd hlt2 (not_lt.mpr hx)
    refine ⟨?_, ?_, ?_⟩
    · rw [hopt, hres.2]; decide
    · intro m hm
      rw [hopt, hres.2]
      exact expected_rev_le_five hneg cls ct rp (List.mem_range'_1.mp hm).1
    · intro m hm _
      rw [hopt, hres.2]
      exact (List.mem_range'_1.mp hm).1
  · subst hzero
    have hall0 : ∀ x : ℕ, expected_rev 0 cls ct rp x = 0 := by
      intro x
      rw [expected_rev]
      simp
    have hres : (optLoop (expected_rev 0 cls ct rp) MARGINS (5, 0)).2 = 0 ∧
        (optLoop (expected_rev 0 cls ct rp) MARGINS (5, 0)).1 = 5 := by
      rcases hcase with h | ⟨_, heq, hlt2, _⟩
      · exact h
      · exfalso
        rw [heq, hall0 _] at hlt2
        exact lt_irrefl 0 hlt2
    refine ⟨?_, ?_, ?_⟩
    · rw [hopt, hres.2]; decide
    · intro m hm
      rw [hopt, hres.2, hall0 m, hall0 5]
    · intro m hm _
      rw [hopt, hres.2]
      exact (List.mem_range'_1.mp hm).1
  · have h5mem : (5 : ℕ) ∈ MARGINS := by decide
    have hrev5 : 0 < expected_rev base cls ct rp 5 := by
      rw [expected_rev]
      have hc : (0 : ℚ) < 1 + ((5 : ℕ) : ℚ) / 100 := by positivity
      have hprice : 0 < base * (1 + ((5 : ℕ) : ℚ) / 100) := mul_pos hpos hc
      have hprob := (probability_bounds (base * (1 + ((5 : ℕ) : ℚ) / 100)) base cls ct rp).1
      nlinarith
    have hright : (optLoop (expected_rev base cls ct rp) MARGINS (5, 0)).1 ∈ MARGINS ∧
        (optLoop (expected_rev base cls ct rp) MARGINS (5, 0)).2
          = expected_rev base cls ct rp
              (optLoop (expected_rev base cls ct rp) MARGINS (5, 0)).1 ∧
        (0 : ℚ) < (optLoop (expected_rev base cls ct rp) MARGINS (5, 0)).2 ∧
        (∀ m ∈ MARGINS, expected_rev base cls ct rp m
            = (optLoop (expected_rev base cls ct rp) MARGINS (5, 0)).2 →
          (optLoop (expected_rev base cls ct rp) MARGINS (5, 0)).1 ≤ m) := by
      rcases hcase with ⟨h2, _⟩ | h
      · exfalso
        have hx := hbound 5 h5mem
        rw [h2] at hx
        exact absurd hrev5 (not_lt.mpr hx)
      · exact h
    refine ⟨by rw [hopt]; exact hright.1, ?_, ?_⟩
    · intro m hm
      rw [hopt, ← hright.2.1]
      exact hbound m hm
    · intro m hm heq
      rw [hopt] at heq ⊢
      exact hright.2.2.2 m hm (by rw [heq, ← hright.2.1])

/-- Witness for C6 at concrete inputs (base cost 1000, Normal tier,
startup client, risk 8): the returned margin lies in the sweep and its
expected revenue dominates the revenue at margin 7. -/
theorem optimize_profit_c6_witness :
    ((optimize_profit 1000 "Normal" "startup" 8).optimal_margin ∈ MARGINS) ∧
    ((7 : ℕ) ∈ MARGINS ∧
      expected_rev 1000 "Normal" "startup" 8 7
        ≤ expected_rev 1000 "Normal" "startup" 8
            ((optimize_profit 1000 "Normal" "startup" 8).optimal_margin)) :=
  ⟨(optimize_profit_argmax_c6 1000 "Normal" "startup" 8).1,
    ⟨by decide, (optimize_profit_argmax_c6 1000 "Normal" "startup" 8).2.1 7 (by decide)⟩⟩

/-- The `relative_price` field, written out. -/
theorem relative_price_formula (q p : ℚ) (cls ct : String) (rp : ℚ) :
    (acceptance_probability q p cls ct rp).relative_price
      = round3 (q / max p 1) := rfl

/-- The `base_acceptance` field, written out. -/
theorem base_acceptance_formula (q p : ℚ) (cls ct : String) (rp : ℚ) :
    (acceptance_probability q p cls ct rp).base_acceptance
      = round3R (_logistic_acceptance (q / max p 1)) := rfl

/-- The composite report of `full_analysis` (the presentation-only
sections — radar chart, reasoning string, similar projects, market
context — are omitted; no claim mentions them). -/
structure FullReport where
  complexity : ComplexityResult
  hours : HoursResult
  risk : RiskResult
  pricePrediction : PriceResult
  acceptanceModel : AcceptResult
  riskSimulation : MCResult
  profitOptimization : OptResult

/-- `full_analysis(...)`: the orchestrator.  The unused `description`
argument is omitted.  `hourly_rate <= 0` and `hardware_cost <= 0`
trigger benchmark auto-detection exactly as in the code. -/
noncomputable def full_analysis (R : RNGImpl) (entryState : R.State)
    (hardware_score : ℤ := 1) (software_score : ℤ := 1) (ai_ml_score : ℤ := 0)
    (deployment_score : ℤ := 1) (risk_safety_score : ℤ := 1)
    (hourly_rate : ℚ := 0) (hardware_cost : ℚ := 0) (profit_percent : ℚ := 20)
    (client_type : String := "startup")
    (safety_critical : Bool := false) (has_ai : Bool := false)
    (custom_pcb : Bool := false) (large_scale : Bool := false)
    (quoted_price : Option ℚ := none) : FullReport :=
  let comp := compute_complexity_score hardware_score software_score ai_ml_score
    deployment_score risk_safety_score
  let cls := comp.classification
  let rate := if hourly_rate ≤ 0
    then _interpolate_from_benchmarks comp.total_score .rate .low else hourly_rate
  let hours := estimate_hours comp.total_score cls
  let risk := calculate_risk safety_critical has_ai custom_pcb large_scale
  let actual_hw := if hardware_cost ≤ 0 then
      (_interpolate_from_benchmarks comp.total_score .hardware_cost .low
        + _interpolate_from_benchmarks comp.total_score .hardware_cost .high) / 2
    else hardware_cost
  let price := predict_price (hours.estimated_hours : ℚ) rate actual_hw
    risk.risk_percent profit_percent comp.total_score cls
  let qp := quoted_price.getD price.predicted_price
  let accept := acceptance_probability qp price.predicted_price cls client_type
    risk.risk_percent
  let mc := monte_carlo_simulation R entryState (hours.estimated_hours : ℚ) rate
    actual_hw risk.risk_percent has_ai custom_pcb
  let base_cost := (hours.estimated_hours : ℚ) * rate + actual_hw
  let profit_opt := optimize_profit base_cost cls client_type risk.risk_percent
  { complexity := comp
    hours := hours
    risk := risk
    pricePrediction := price
    acceptanceModel := accept
    riskSimulation := mc
    profitOptimization := profit_opt }

/-- Claim C7: with `quoted_price = None` the orchestrator quotes its own
predicted price, so (provided that price is at least 1) the returned
acceptance has `relative_price = 1` and `base_acceptance` equal to the
(3-decimal rounded) logistic curve evaluated at relative price 1. -/
theorem full_analysis_roundtrip_c7 :
    ∀ (R : RNGImpl) (s : R.State) (hw sw ai dep rs : ℤ)
      (hourly_rate hardware_cost profit_percent : ℚ) (client_type : String)
      (sc ha cp ls : Bool),
      1 ≤ (full_analysis R s hw sw ai dep rs hourly_rate hardware_cost
            profit_percent client_type sc ha cp ls none).pricePrediction.predicted_price →
      (full_analysis R s hw sw ai dep rs hourly_rate hardware_cost
          profit_percent client_type sc ha cp ls none).acceptanceModel.relative_price = 1 ∧
      (full_analysis R s hw sw ai dep rs hourly_rate hardware_cost
          profit_percent client_type sc ha cp ls none).acceptanceModel.base_acceptance
        = round3R (_logistic_acceptance 1) := by
  intro R s hw sw ai dep rs hourly_rate hardware_cost profit_percent ct sc ha cp ls hP
  simp only [full_analysis, Option.getD_none] at hP ⊢
  rw [relative_price_formula, base_acceptance_formula]
  have hmax : max (predict_price ((estimate_hours (compute_complexity_score hw sw ai dep
      rs).total_score (compute_complexity_score hw sw ai dep rs).classification).estimated_hours : ℚ)
      (if hourly_rate ≤ 0
        then _interpolate_from_benchmarks (compute_complexity_score hw sw ai dep rs).total_score
          .rate .low else hourly_rate)
      (if hardware_cost ≤ 0 then
        (_interpolate_from_benchmarks (compute_complexity_score hw sw ai dep rs).total_score
            .hardware_cost .low
          + _interpolate_from_benchmarks (compute_complexity_score hw sw ai dep rs).total_score
            .hardware_cost .high) / 2
        else hardware_cost)
      (calculate_risk sc ha cp ls).risk_percent profit_percent
      (compute_complexity_score hw sw ai dep rs).total_score
      (compute_complexity_score hw sw ai dep rs).classification).predicted_price 1
      = (predict_price ((estimate_hours (compute_complexity_score hw sw ai dep
      rs).total_score (compute_complexity_score hw sw ai dep rs).classification).estimated_hours : ℚ)
      (if hourly_rate ≤ 0
        then _interpolate_from_benchmarks (compute_complexity_score hw sw ai dep rs).total_score
          .rate .low else hourly_rate)
      (if hardware_cost ≤ 0 then
        (_interpolate_from_benchmarks (compute_complexity_score hw sw ai dep rs).total_score
            .hardware_cost .low
          + _interpolate_from_benchmarks (compute_complexity_score hw sw ai dep rs).total_score
            .hardware_cost .high) / 2
        else hardware_cost)
      (calculate_risk sc ha cp ls).risk_percent profit_percent
      (compute_complexity_score hw sw ai dep rs).total_score
      (compute_complexity_score hw sw ai dep rs).classification).predicted_price :=
    max_eq_left hP
  rw [hmax]
  rw [div_self (by linarith : (predict_price ((estimate_hours (compute_complexity_score hw sw ai dep
      rs).total_score (compute_complexity_score hw sw ai dep rs).classification).estimated_hours : ℚ)
      (if hourly_rate ≤ 0
        then _interpolate_from_benchmarks (compute_complexity_score hw sw ai dep rs).total_score
          .rate .low else hourly_rate)
      (if hardware_cost ≤ 0 then
        (_interpolate_from_benchmarks (compute_complexity_score hw sw ai dep rs).total_score
            .hardware_cost .low
          + _interpolate_from_benchmarks (compute_complexity_score hw sw ai dep rs).total_score
            .hardware_cost .high) / 2
        else hardware_cost)
      (calculate_risk sc ha cp ls).risk_percent profit_percent
      (compute_complexity_score hw sw ai dep rs).total_score
      (compute_complexity_score hw sw ai dep rs).classification).predicted_price ≠ 0)]
  constructor
  · rw [round3]
    norm_num [round_eq]
  · rfl

/-- A concrete degenerate RNG implementation used only to instantiate
witnesses (any implementation works; the theorems hold for all). -/
def unitRNG : RNGImpl :=
  { State := Unit
    seed := fun _ => ()
    gauss := fun s _ _ => (0, s)
    uniform := fun s a _ => (a, s)
    rand := fun s => (0, s) }

/-- Witness for C7 at concrete inputs (scores 1,1,0,1,1, rate 600,
hardware 1000): the predicted price is 24973.76 ≥ 1 and the round-trip
relative price is 1. -/
theorem full_analysis_c7_witness :
    1 ≤ (full_analysis unitRNG () 1 1 0 1 1 600 1000 20 "startup"
          false false false false none).pricePrediction.predicted_price ∧
    (full_analysis unitRNG () 1 1 0 1 1 600 1000 20 "startup"
        false false false false none).acceptanceModel.relative_price = 1 := by
  have hP : 1 ≤ (full_analysis unitRNG () 1 1 0 1 1 600 1000 20 "startup"
      false false false false none).pricePrediction.predicted_price := by
    simp only [full_analysis]
    simp [predict_price, estimate_hours, compute_complexity_score, classify_complexity,
      calculate_risk, HOURS_RANGE, TOTAL_COST_RANGE, _interpolate_from_benchmarks,
      findExact, sorted_bm, MARKET_BENCHMARKS, bm0, bm1, bm2, bm3, bm4, bm5, bm6,
      bm7, bm8, bm9, benchValue, round2, roundI, bm_hw_mid]
    norm_num [round_eq]
  exact ⟨hP, (full_analysis_roundtrip_c7 unitRNG () 1 1 0 1 1 600 1000 20 "startup"
    false false false false hP).1⟩
